import Mathlib

/-!
Verification development for the headless TDLib client core
(`tdlib_client.py`, `auth.py`, `message_handler.py`, `web_server.py`).

The event-driven core is shallowly embedded: the JSON updates consumed from
the engine become an inductive `Event` type carrying exactly the fields the
code reads; the dispatcher loop `listen_for_messages` becomes a step function
`dispStep` on an explicit `DispState` (caches, pending sets, the commands
passed to `client.send`, and the formatted records emitted so far); the
authorisation loop `authenticate` becomes `authLoop`; the username-resolution
wait loops of `interactive_send_loop` and `TelegramWebClient.send_message`
become `usernameResolve` and `webResolve`; `TDLibClient.execute` becomes
`tdExecute`.
-/

namespace HeadlessTCLI

/-- The value of an `id` field read with `update.get("id")` and then checked
with `isinstance(user_id, int)`: an integer, a present-but-non-integer value,
or a missing key. -/
inductive IdVal
  | intId (i : Int)
  | nonInt
  | missing
deriving DecidableEq

/-- The `content` object of a message: `content.get("@type")` and the nested
`content.get("text", {}).get("text", ...)` path (the only fields the code
reads). A missing `content` dict is `⟨none, none⟩`. -/
structure Content where
  ty : Option String
  textText : Option String
deriving DecidableEq

/-- The `sender_id` object of a message, discriminated on its `@type`
(`messageSenderUser` / `messageSenderChat` / anything else or absent).
The nested id fields are read with `.get`, hence optional. -/
inductive SenderId
  | user (userId : Option Int)
  | chat (chatId : Option Int)
  | absent
deriving DecidableEq

/-- The `message` object of an `updateNewMessage`, restricted to the fields
the code reads: `chat_id`, `sender_id`, `content`, `date`. -/
structure Msg where
  chatId : Option Int
  senderId : SenderId
  content : Content
  date : Option Int
deriving DecidableEq

/-- One update from the engine, discriminated on `@type`:
`updateNewMessage`, `user`, `chat`, `updateAuthorizationState` (carrying the
`@type` of its nested `authorization_state` object), or anything else. -/
inductive Event
  | newMessage (msg : Msg)
  | userRec (id : IdVal) (username : Option String) (firstName lastName : Option String)
  | chatRec (id : IdVal) (title : Option String) (username : Option String)
  | authUpdate (state : Option String)
  | other (ty : String)
deriving DecidableEq

/-- A request handed to `client.send` by the dispatcher loop. -/
inductive Command
  | getUser (userId : Int)
  | getChat (chatId : Option Int)
deriving DecidableEq

/-- A formatted record emitted for one `updateNewMessage`:
`{time, sender, chat, text}` (the log lines
`[time] [sender | chat]` / `> text` are a rendering of this). -/
structure Record where
  time : String
  sender : String
  chat : String
  text : String
deriving DecidableEq

/-- The state of the dispatcher loop `listen_for_messages`: the two entity
caches, the two pending sets, the commands sent so far, and the records
emitted so far. -/
structure DispState where
  usersCache : List (Int × String)
  chatsCache : List (Int × String)
  pendingUsers : List Int
  pendingChats : List (Option Int)
  sent : List Command
  records : List Record
deriving DecidableEq

/-- Caches start empty at dispatcher start. -/
def initState : DispState := ⟨[], [], [], [], [], []⟩

/-- Lookup in a cache modelled as an association list; insertion conses at
the front, so the most recent binding wins, matching dict assignment. -/
def cacheLookup : List (Int × String) → Int → Option String
  | [], _ => none
  | (k, v) :: rest, i => if k = i then some v else cacheLookup rest i

/-- Lookup with an optional key: `None in chats_cache` is always false for an
int-keyed dict. -/
def optLookup (c : List (Int × String)) : Option Int → Option String
  | some i => cacheLookup c i
  | none => none

/-- `set.discard`: remove every occurrence of an id from a pending set. -/
def discardId {α : Type} [DecidableEq α] : List α → α → List α
  | [], _ => []
  | x :: rest, i => if x = i then discardId rest i else x :: discardId rest i

/-- Rendering of an optional id inside an f-string: `f"chat:{None}"` is
`"chat:None"`. -/
def optIdStr : Option Int → String
  | some i => toString i
  | none => "None"

/-- Rendering of `content.get('@type')` inside an f-string: a missing key
prints as `"None"`. -/
def tyStr : Option String → String
  | some k => k
  | none => "None"

/-- Content extraction (message_handler.py lines 118-123): plain
`messageText` yields the literal nested text (defaulting to `""`), any other
content kind yields the placeholder naming it. -/
def extractText (c : Content) : String :=
  if c.ty = some "messageText" then c.textText.getD ""
  else "<Unsupported message type " ++ tyStr c.ty ++ ">"

/-- Two-digit zero padding for the clock rendering. -/
def pad2 (n : Nat) : String := if n < 10 then "0" ++ toString n else toString n

/-- Timestamp rendering (message_handler.py lines 127-132): a missing `date`
yields the sentinel `"--:--"`; otherwise an `"%H:%M"` clock string.  The
`.astimezone()` local-timezone conversion is environment state outside the
model and is rendered here at UTC offset. -/
def timeString : Option Int → String
  | none => "--:--"
  | some t =>
    let secs := (t % 86400).toNat
    pad2 (secs / 3600) ++ ":" ++ pad2 ((secs % 3600) / 60)

/-- `str.strip()`, modeled over the character list (ASCII whitespace). -/
def stripStr (s : String) : String :=
  String.mk (((s.data.dropWhile Char.isWhitespace).reverse.dropWhile Char.isWhitespace).reverse)

/-- `str.lower()`, modeled over the character list. -/
def lowerStr (s : String) : String := String.mk (s.data.map Char.toLower)

/-- Names joined as `" ".join(part for part in (first.strip(), last.strip()) if part)`. -/
def joinNames (firstName lastName : String) : String :=
  let f := stripStr firstName
  let l := stripStr lastName
  if f = "" then l else if l = "" then f else f ++ " " ++ l

/-- Display name computed for a `user` record (message_handler.py lines
151-159): `"@username"` when the username is truthy (present and nonempty),
else the trimmed first/last names joined; an empty result falls back to the
numeric placeholder (`display or f"user:{user_id}"`). -/
def userDisplay (uid : Int) (username : Option String) (firstName lastName : String) : String :=
  let display :=
    match username with
    | some u => if u = "" then joinNames firstName lastName else "@" ++ u
    | none => joinNames firstName lastName
  if display = "" then "user:" ++ toString uid else display

/-- Sender-name resolution for one message (message_handler.py lines 79-103):
cache hit uses the cached name; a miss synthesises the placeholder for this
event only and, when the id is not already pending, sends a lookup and marks
it pending.  A `messageSenderChat` with a missing `chat_id` is not guarded by
an `is not None` check, so it sends `getChat` with a null id and records
`None` in the pending set, exactly as the Python does. -/
def resolveSender (s : DispState) : SenderId → String × DispState
  | .user none => ("", s)
  | .user (some uid) =>
    match cacheLookup s.usersCache uid with
    | some n => (n, s)
    | none =>
      if uid ∈ s.pendingUsers then ("user:" ++ toString uid, s)
      else ("user:" ++ toString uid,
        { s with sent := s.sent ++ [Command.getUser uid], pendingUsers := uid :: s.pendingUsers })
  | .chat cid =>
    match optLookup s.chatsCache cid with
    | some n => (n, s)
    | none =>
      if cid ∈ s.pendingChats then ("chat:" ++ optIdStr cid, s)
      else ("chat:" ++ optIdStr cid,
        { s with sent := s.sent ++ [Command.getChat cid], pendingChats := cid :: s.pendingChats })
  | .absent => ("", s)

/-- Chat-name resolution for one message (message_handler.py lines 105-113),
run on the state already updated by the sender resolution (the two share
`pending_chat_ids`). -/
def resolveChatName (s : DispState) : Option Int → String × DispState
  | none => ("", s)
  | some c =>
    match cacheLookup s.chatsCache c with
    | some n => (n, s)
    | none =>
      if (some c) ∈ s.pendingChats then ("chat:" ++ toString c, s)
      else ("chat:" ++ toString c,
        { s with sent := s.sent ++ [Command.getChat (some c)], pendingChats := some c :: s.pendingChats })

/-- Formatting of one `updateNewMessage`: resolve the sender, then the chat
name, extract the content, render the time; returns the record together with
the updated state. -/
def formatNew (s : DispState) (m : Msg) : Record × DispState :=
  let r1 := resolveSender s m.senderId
  let r2 := resolveChatName r1.2 m.chatId
  ({ time := timeString m.date, sender := r1.1, chat := r2.1, text := extractText m.content }, r2.2)

/-- One iteration of the dispatcher loop `listen_for_messages`
(message_handler.py lines 69-172; `TelegramWebClient.message_listener` in
web_server.py implements the same logic): an `updateNewMessage` is formatted
and its record appended; a `user` or `chat` record with an integer id upserts
the corresponding cache and discards the id from the pending set; everything
else (including records with a missing or non-integer id) leaves the state
untouched. -/
def dispStep (s : DispState) : Event → DispState
  | .newMessage m =>
    let r := formatNew s m
    { r.2 with records := r.2.records ++ [r.1] }
  | .userRec id username firstName lastName =>
    match id with
    | .intId uid =>
      { s with
        usersCache :=
          (uid, userDisplay uid username (firstName.getD "") (lastName.getD "")) :: s.usersCache,
        pendingUsers := discardId s.pendingUsers uid }
    | _ => s
  | .chatRec id title _ =>
    match id with
    | .intId cid =>
      { s with
        chatsCache := (cid, title.getD ("chat:" ++ toString cid)) :: s.chatsCache,
        pendingChats := discardId s.pendingChats (some cid) }
    | _ => s
  | .authUpdate _ => s
  | .other _ => s

/-- The dispatcher loop over a finite list of received events. -/
def dispRun (s : DispState) (l : List Event) : DispState := l.foldl dispStep s

/-- Whether an event is the `user` resolution response for id `X` with an
integer id (the only event kind that writes `users_cache[X]`). -/
def isUserRecFor (X : Int) : Event → Bool
  | .userRec (.intId i) _ _ _ => i = X
  | _ => false

/-- Whether an event is the `chat` resolution response for id `C` with an
integer id (the only event kind that writes `chats_cache[C]`). -/
def isChatRecFor (C : Int) : Event → Bool
  | .chatRec (.intId i) _ _ => i = C
  | _ => false

/-- A command submitted by a transient state of the authorisation loop.  The
payloads (credentials, console input) are external I/O outside the model;
only the command kind is recorded. -/
inductive AuthCmd
  | setTdlibParameters
  | checkDatabaseEncryptionKey
  | setAuthenticationPhoneNumber
  | checkAuthenticationCode
  | checkAuthenticationPassword
  | registerUser
deriving DecidableEq

/-- Outcome of running the authorisation loop on a finite list of received
events: it returned (`authorizationStateReady`), it raised the fatal
`RuntimeError` (`authorizationStateClosed`), or it is still looping, blocked
in `client.receive()` awaiting further events. -/
inductive AuthResult
  | success
  | closedError
  | waiting
deriving DecidableEq

/-- The `authenticate` loop (auth.py lines 75-182) over a finite list of
received events, with the list of commands submitted so far: every event
whose `@type` is not `updateAuthorizationState` is ignored; the nested
authorisation-state `@type` is read with a `""` default and dispatched in the
source's branch order; each transient known state submits its command and
continues; `authorizationStateReady` returns, `authorizationStateClosed`
raises; unknown states are transient and continue. -/
def authLoop : List Event → List AuthCmd → AuthResult × List AuthCmd
  | [], sent => (.waiting, sent)
  | .authUpdate st :: rest, sent =>
    let ty := st.getD ""
    if ty = "authorizationStateWaitTdlibParameters" then
      authLoop rest (sent ++ [AuthCmd.setTdlibParameters])
    else if ty = "authorizationStateWaitEncryptionKey" then
      authLoop rest (sent ++ [AuthCmd.checkDatabaseEncryptionKey])
    else if ty = "authorizationStateWaitPhoneNumber" then
      authLoop rest (sent ++ [AuthCmd.setAuthenticationPhoneNumber])
    else if ty = "authorizationStateWaitCode" then
      authLoop rest (sent ++ [AuthCmd.checkAuthenticationCode])
    else if ty = "authorizationStateWaitPassword" then
      authLoop rest (sent ++ [AuthCmd.checkAuthenticationPassword])
    else if ty = "authorizationStateWaitRegistration" then
      authLoop rest (sent ++ [AuthCmd.registerUser])
    else if ty = "authorizationStateReady" then (.success, sent)
    else if ty = "authorizationStateClosed" then (.closedError, sent)
    else authLoop rest sent
  | _ :: rest, sent => authLoop rest sent

/-- Whether an event is an authorisation update carrying one of the two
terminal states. -/
def isTerminalAuth : Event → Bool
  | .authUpdate st =>
    st.getD "" = "authorizationStateReady" ∨ st.getD "" = "authorizationStateClosed"
  | _ => false

/-- The matching predicate of the username wait loops
(`update.get("@type") == "chat" and update.get("username", "").lower() ==
username.lower()`). -/
def matchesChat (username : String) : Event → Bool
  | .chatRec _ _ uname => lowerStr (uname.getD "") = lowerStr username
  | _ => false

/-- `update.get("id")` on a matched chat record: an integer id or `None`. -/
def chatRecId : Event → Option Int
  | .chatRec (.intId i) _ _ => some i
  | _ => none

/-- Outcome of a username wait loop on a finite list of received events:
a matching chat record broke the loop (carrying its possibly missing id);
the loop is blocked in `receive()` with no further events arriving; or — in
the web variant only — the deadline guard failed and the loop was left with
`chat_id = None`, producing the structured failure result. -/
inductive ResolveOutcome
  | resolved (chatId : Option Int)
  | waiting
  | gaveUp
deriving DecidableEq

/-- The inner wait loop of `interactive_send_loop` (message_handler.py lines
214-221) after `searchPublicChat` was sent.  `client.receive()` pops from the
single shared `asyncio.Queue`, so every event inspected here is removed from
the stream; the loop body does nothing with a non-matching update.  The loop
has no timeout and only exits on a match.  Returns the outcome, the events
left on the queue, and the non-matching events consumed (which no other
consumer of the queue can ever receive). -/
def usernameResolve : List Event → String → ResolveOutcome × List Event × List Event
  | [], _ => (.waiting, [], [])
  | e :: rest, u =>
    if matchesChat u e then (.resolved (chatRecId e), rest, [])
    else
      let r := usernameResolve rest u
      (r.1, r.2.1, e :: r.2.2)

/-- The wait loop of `TelegramWebClient.send_message` (web_server.py lines
214-224): the guard `now - start < timeout` is checked before each
`receive()`; on guard failure the loop exits with `chat_id = None` (a
structured failure result).  Events carry their arrival time; `now` is the
time observed at the guard check, advanced to the arrival time of each
processed event. -/
def webResolve (start deadline : Nat) (u : String) : Nat → List (Event × Nat) → ResolveOutcome
  | now, [] => if deadline ≤ now - start then .gaveUp else .waiting
  | now, (e, t) :: rest =>
    if deadline ≤ now - start then .gaveUp
    else if matchesChat u e then .resolved (chatRecId e)
    else webResolve start deadline u t rest

/-- `TDLibClient.execute` (tdlib_client.py lines 149-164): the result of the
underlying synchronous `td_execute` call is `None` or a raw string; a falsy
result (no answer) yields `None`, otherwise the string is parsed, with a
parse failure (the `except` branch around `json.loads`) yielding `None`. -/
def tdExecute {α : Type} (engineResult : Option String) (parseLoads : String → Option α) :
    Option α :=
  match engineResult with
  | some result => if result = "" then none else parseLoads result
  | none => none

/-- Whether an `id` field holds an integer (`isinstance(user_id, int)`). -/
def isIntId : IdVal → Bool
  | .intId _ => true
  | _ => false

/-- Number of occurrences of a command in the list of sent commands. -/
def countCmd (c : Command) : List Command → Nat
  | [] => 0
  | x :: rest => (if x = c then 1 else 0) + countCmd c rest

theorem countCmd_append (c : Command) (l t : List Command) :
    countCmd c (l ++ t) = countCmd c l + countCmd c t := by
  induction l with
  | nil => simp [countCmd]
  | cons x rest ih => simp [countCmd, ih, Nat.add_assoc]

theorem mem_discardId {α : Type} [DecidableEq α] (l : List α) (i x : α) :
    x ∈ discardId l i ↔ x ∈ l ∧ x ≠ i := by
  induction l with
  | nil => simp [discardId]
  | cons y rest ih =>
    by_cases h : y = i
    · subst h
      have hstep : discardId (y :: rest) y = discardId rest y := by simp [discardId]
      rw [hstep, ih]
      constructor
      · exact fun ⟨hm, hne⟩ => ⟨List.mem_cons_of_mem _ hm, hne⟩
      · rintro ⟨hm, hne⟩
        cases List.mem_cons.mp hm with
        | inl hxy => exact absurd hxy hne
        | inr hm2 => exact ⟨hm2, hne⟩
    · have hstep : discardId (y :: rest) i = y :: discardId rest i := by simp [discardId, h]
      rw [hstep]
      simp only [List.mem_cons, ih]
      constructor
      · rintro (rfl | ⟨hm, hne⟩)
        · exact ⟨Or.inl rfl, h⟩
        · exact ⟨Or.inr hm, hne⟩
      · rintro ⟨rfl | hm, hne⟩
        · exact Or.inl rfl
        · exact Or.inr ⟨hm, hne⟩

theorem resolveSender_usersCache (s : DispState) (sid : SenderId) :
    (resolveSender s sid).2.usersCache = s.usersCache := by
  cases sid with
  | user uid =>
    cases uid with
    | none => rfl
    | some u =>
      cases h : cacheLookup s.usersCache u with
      | some n => simp [resolveSender, h]
      | none =>
        simp only [resolveSender, h]
        split <;> rfl
  | chat cid =>
    cases h : optLookup s.chatsCache cid with
    | some n => simp [resolveSender, h]
    | none =>
      simp only [resolveSender, h]
      split <;> rfl
  | absent => rfl

theorem resolveSender_chatsCache (s : DispState) (sid : SenderId) :
    (resolveSender s sid).2.chatsCache = s.chatsCache := by
  cases sid with
  | user uid =>
    cases uid with
    | none => rfl
    | some u =>
      cases h : cacheLookup s.usersCache u with
      | some n => simp [resolveSender, h]
      | none =>
        simp only [resolveSender, h]
        split <;> rfl
  | chat cid =>
    cases h : optLookup s.chatsCache cid with
    | some n => simp [resolveSender, h]
    | none =>
      simp only [resolveSender, h]
      split <;> rfl
  | absent => rfl

theorem resolveSender_records (s : DispState) (sid : SenderId) :
    (resolveSender s sid).2.records = s.records := by
  cases sid with
  | user uid =>
    cases uid with
    | none => rfl
    | some u =>
      cases h : cacheLookup s.usersCache u with
      | some n => simp [resolveSender, h]
      | none =>
        simp only [resolveSender, h]
        split <;> rfl
  | chat cid =>
    cases h : optLookup s.chatsCache cid with
    | some n => simp [resolveSender, h]
    | none =>
      simp only [resolveSender, h]
      split <;> rfl
  | absent => rfl

theorem resolveChatName_usersCache (s : DispState) (c : Option Int) :
    (resolveChatName s c).2.usersCache = s.usersCache := by
  cases c with
  | none => rfl
  | some i =>
    cases h : cacheLookup s.chatsCache i with
    | some n => simp [resolveChatName, h]
    | none =>
      simp only [resolveChatName, h]
      split <;> rfl

theorem resolveChatName_chatsCache (s : DispState) (c : Option Int) :
    (resolveChatName s c).2.chatsCache = s.chatsCache := by
  cases c with
  | none => rfl
  | some i =>
    cases h : cacheLookup s.chatsCache i with
    | some n => simp [resolveChatName, h]
    | none =>
      simp only [resolveChatName, h]
      split <;> rfl

theorem resolveChatName_records (s : DispState) (c : Option Int) :
    (resolveChatName s c).2.records = s.records := by
  cases c with
  | none => rfl
  | some i =>
    cases h : cacheLookup s.chatsCache i with
    | some n => simp [resolveChatName, h]
    | none =>
      simp only [resolveChatName, h]
      split <;> rfl

theorem resolveChatName_pendingUsers (s : DispState) (c : Option Int) :
    (resolveChatName s c).2.pendingUsers = s.pendingUsers := by
  cases c with
  | none => rfl
  | some i =>
    cases h : cacheLookup s.chatsCache i with
    | some n => simp [resolveChatName, h]
    | none =>
      simp only [resolveChatName, h]
      split <;> rfl

theorem dispStep_newMessage_usersCache (s : DispState) (m : Msg) :
    (dispStep s (Event.newMessage m)).usersCache = s.usersCache := by
  show (resolveChatName (resolveSender s m.senderId).2 m.chatId).2.usersCache = s.usersCache
  rw [resolveChatName_usersCache, resolveSender_usersCache]

theorem dispStep_newMessage_chatsCache (s : DispState) (m : Msg) :
    (dispStep s (Event.newMessage m)).chatsCache = s.chatsCache := by
  show (resolveChatName (resolveSender s m.senderId).2 m.chatId).2.chatsCache = s.chatsCache
  rw [resolveChatName_chatsCache, resolveSender_chatsCache]

theorem dispStep_newMessage_records (s : DispState) (m : Msg) :
    (dispStep s (Event.newMessage m)).records = s.records ++ [(formatNew s m).1] := by
  show (resolveChatName (resolveSender s m.senderId).2 m.chatId).2.records ++ _ = _
  rw [resolveChatName_records, resolveSender_records]

theorem dispStep_records_append (s : DispState) (e : Event) :
    ∃ t, (dispStep s e).records = s.records ++ t := by
  cases e with
  | newMessage m => exact ⟨[(formatNew s m).1], dispStep_newMessage_records s m⟩
  | userRec id uu fn ln =>
    cases id with
    | intId i => exact ⟨[], by simp [dispStep]⟩
    | nonInt => exact ⟨[], by simp [dispStep]⟩
    | missing => exact ⟨[], by simp [dispStep]⟩
  | chatRec id t uu =>
    cases id with
    | intId i => exact ⟨[], by simp [dispStep]⟩
    | nonInt => exact ⟨[], by simp [dispStep]⟩
    | missing => exact ⟨[], by simp [dispStep]⟩
  | authUpdate st => exact ⟨[], by simp [dispStep]⟩
  | other ty => exact ⟨[], by simp [dispStep]⟩

theorem dispRun_records_append (l : List Event) :
    ∀ s : DispState, ∃ t, (dispRun s l).records = s.records ++ t := by
  induction l with
  | nil => exact fun s => ⟨[], by simp [dispRun]⟩
  | cons e rest ih =>
    intro s
    obtain ⟨t1, h1⟩ := dispStep_records_append s e
    obtain ⟨t2, h2⟩ := ih (dispStep s e)
    refine ⟨t1 ++ t2, ?_⟩
    have hstep : dispRun s (e :: rest) = dispRun (dispStep s e) rest := rfl
    rw [hstep, h2, h1, List.append_assoc]

theorem dispStep_userRec_intId (s : DispState) (uid : Int) (uu fn ln : Option String) :
    dispStep s (Event.userRec (IdVal.intId uid) uu fn ln) =
      { s with
        usersCache := (uid, userDisplay uid uu (fn.getD "") (ln.getD "")) :: s.usersCache,
        pendingUsers := discardId s.pendingUsers uid } := rfl

theorem dispStep_chatRec_intId (s : DispState) (cid : Int) (title uu : Option String) :
    dispStep s (Event.chatRec (IdVal.intId cid) title uu) =
      { s with
        chatsCache := (cid, title.getD ("chat:" ++ toString cid)) :: s.chatsCache,
        pendingChats := discardId s.pendingChats (some cid) } := rfl

theorem dispStep_usersCache_lookup (s : DispState) (e : Event) (X : Int)
    (he : isUserRecFor X e = false) :
    cacheLookup (dispStep s e).usersCache X = cacheLookup s.usersCache X := by
  cases e with
  | newMessage m => rw [dispStep_newMessage_usersCache]
  | userRec id uu fn ln =>
    cases id with
    | intId i =>
      have hne : i ≠ X := by simpa [isUserRecFor] using he
      rw [dispStep_userRec_intId]
      simp [cacheLookup, hne]
    | nonInt => rfl
    | missing => rfl
  | chatRec id t uu =>
    cases id with
    | intId i => rfl
    | nonInt => rfl
    | missing => rfl
  | authUpdate st => rfl
  | other ty => rfl

theorem dispRun_usersCache_lookup (l : List Event) :
    ∀ s : DispState, ∀ X : Int, (∀ e ∈ l, isUserRecFor X e = false) →
    cacheLookup (dispRun s l).usersCache X = cacheLookup s.usersCache X := by
  induction l with
  | nil => intro s X _; rfl
  | cons e rest ih =>
    intro s X h
    have h1 := dispStep_usersCache_lookup s e X (h e (List.mem_cons_self e rest))
    have h2 := ih (dispStep s e) X (fun x hx => h x (List.mem_cons_of_mem e hx))
    have hstep : dispRun s (e :: rest) = dispRun (dispStep s e) rest := rfl
    rw [hstep, h2, h1]

theorem formatNew_sender_cached (s : DispState) (m : Msg) (X : Int) (n : String)
    (hm : m.senderId = SenderId.user (some X)) (hc : cacheLookup s.usersCache X = some n) :
    (formatNew s m).1.sender = n := by
  show (resolveSender s m.senderId).1 = n
  rw [hm]
  simp [resolveSender, hc]

theorem dispStep_chatsCache_lookup (s : DispState) (e : Event) (C : Int)
    (he : isChatRecFor C e = false) :
    cacheLookup (dispStep s e).chatsCache C = cacheLookup s.chatsCache C := by
  cases e with
  | newMessage m => rw [dispStep_newMessage_chatsCache]
  | userRec id uu fn ln =>
    cases id with
    | intId i => rw [dispStep_userRec_intId]
    | nonInt => rfl
    | missing => rfl
  | chatRec id t uu =>
    cases id with
    | intId i =>
      have hne : i ≠ C := by simpa [isChatRecFor] using he
      rw [dispStep_chatRec_intId]
      simp [cacheLookup, hne]
    | nonInt => rfl
    | missing => rfl
  | authUpdate st => rfl
  | other ty => rfl

theorem dispRun_chatsCache_lookup (l : List Event) :
    ∀ s : DispState, ∀ C : Int, (∀ e ∈ l, isChatRecFor C e = false) →
    cacheLookup (dispRun s l).chatsCache C = cacheLookup s.chatsCache C := by
  induction l with
  | nil => intro s C _; rfl
  | cons e rest ih =>
    intro s C h
    have h1 := dispStep_chatsCache_lookup s e C (h e (List.mem_cons_self e rest))
    have h2 := ih (dispStep s e) C (fun x hx => h x (List.mem_cons_of_mem e hx))
    have hstep : dispRun s (e :: rest) = dispRun (dispStep s e) rest := rfl
    rw [hstep, h2, h1]

theorem formatNew_chat_cached (s : DispState) (m : Msg) (C : Int) (n : String)
    (hm : m.chatId = some C) (hc : cacheLookup s.chatsCache C = some n) :
    (formatNew s m).1.chat = n := by
  show (resolveChatName (resolveSender s m.senderId).2 m.chatId).1 = n
  rw [hm]
  have hc2 : cacheLookup (resolveSender s m.senderId).2.chatsCache C = some n := by
    rw [resolveSender_chatsCache]
    exact hc
  simp [resolveChatName, hc2]

theorem formatNew_senderChat_cached (s : DispState) (m : Msg) (C : Int) (n : String)
    (hm : m.senderId = SenderId.chat (some C)) (hc : cacheLookup s.chatsCache C = some n) :
    (formatNew s m).1.sender = n := by
  show (resolveSender s m.senderId).1 = n
  rw [hm]
  simp [resolveSender, optLookup, hc]

theorem resolveSender_user_miss_name (s : DispState) (X : Int)
    (hc : cacheLookup s.usersCache X = none) :
    (resolveSender s (SenderId.user (some X))).1 = "user:" ++ toString X := by
  simp only [resolveSender, hc]
  split <;> rfl

theorem resolveSender_chat_miss_name (s : DispState) (cid : Option Int)
    (hc : optLookup s.chatsCache cid = none) :
    (resolveSender s (SenderId.chat cid)).1 = "chat:" ++ optIdStr cid := by
  simp only [resolveSender, hc]
  split <;> rfl

theorem resolveChatName_miss_name (s : DispState) (c : Int)
    (hc : cacheLookup s.chatsCache c = none) :
    (resolveChatName s (some c)).1 = "chat:" ++ toString c := by
  simp only [resolveChatName, hc]
  split <;> rfl

theorem cacheLookup_cons_self (c : List (Int × String)) (i : Int) (v : String) :
    cacheLookup ((i, v) :: c) i = some v := by simp [cacheLookup]

/-- The cache/pending exclusion invariant: an id that is pending is not
resolved in the cache of its kind. -/
def DisjointInv (s : DispState) : Prop :=
  (∀ i ∈ s.pendingUsers, cacheLookup s.usersCache i = none)
  ∧ (∀ i : Int, (some i) ∈ s.pendingChats → cacheLookup s.chatsCache i = none)

theorem resolveSender_pendingUsers_sub (s : DispState) (sid : SenderId) :
    ∀ i ∈ (resolveSender s sid).2.pendingUsers,
      i ∈ s.pendingUsers ∨ cacheLookup s.usersCache i = none := by
  cases sid with
  | user uid =>
    cases uid with
    | none => exact fun i hi => Or.inl hi
    | some u =>
      cases h : cacheLookup s.usersCache u with
      | some n =>
        simp only [resolveSender, h]
        exact fun i hi => Or.inl hi
      | none =>
        simp only [resolveSender, h]
        split
        · exact fun i hi => Or.inl hi
        · intro i hi
          rcases List.mem_cons.mp hi with rfl | hi2
          · exact Or.inr h
          · exact Or.inl hi2
  | chat cid =>
    cases h : optLookup s.chatsCache cid with
    | some n =>
      simp only [resolveSender, h]
      exact fun i hi => Or.inl hi
    | none =>
      simp only [resolveSender, h]
      split
      · exact fun i hi => Or.inl hi
      · exact fun i hi => Or.inl hi
  | absent => exact fun i hi => Or.inl hi

theorem resolveSender_pendingChats_sub (s : DispState) (sid : SenderId) :
    ∀ c ∈ (resolveSender s sid).2.pendingChats,
      c ∈ s.pendingChats ∨ optLookup s.chatsCache c = none := by
  cases sid with
  | user uid =>
    cases uid with
    | none => exact fun c hc => Or.inl hc
    | some u =>
      cases h : cacheLookup s.usersCache u with
      | some n =>
        simp only [resolveSender, h]
        exact fun c hc => Or.inl hc
      | none =>
        simp only [resolveSender, h]
        split
        · exact fun c hc => Or.inl hc
        · exact fun c hc => Or.inl hc
  | chat cid =>
    cases h : optLookup s.chatsCache cid with
    | some n =>
      simp only [resolveSender, h]
      exact fun c hc => Or.inl hc
    | none =>
      simp only [resolveSender, h]
      split
      · exact fun c hc => Or.inl hc
      · intro c hc
        rcases List.mem_cons.mp hc with rfl | hc2
        · exact Or.inr h
        · exact Or.inl hc2
  | absent => exact fun c hc => Or.inl hc

theorem resolveChatName_pendingChats_sub (s : DispState) (cid : Option Int) :
    ∀ c ∈ (resolveChatName s cid).2.pendingChats,
      c ∈ s.pendingChats ∨ optLookup s.chatsCache c = none := by
  cases cid with
  | none => exact fun c hc => Or.inl hc
  | some i =>
    cases h : cacheLookup s.chatsCache i with
    | some n =>
      simp only [resolveChatName, h]
      exact fun c hc => Or.inl hc
    | none =>
      simp only [resolveChatName, h]
      split
      · exact fun c hc => Or.inl hc
      · intro c hc
        rcases List.mem_cons.mp hc with rfl | hc2
        · exact Or.inr h
        · exact Or.inl hc2

theorem dispStep_inv (s : DispState) (e : Event) (h : DisjointInv s) :
    DisjointInv (dispStep s e) := by
  cases e with
  | newMessage m =>
    constructor
    · intro i hi
      rw [dispStep_newMessage_usersCache]
      have hi1 : i ∈ (resolveChatName (resolveSender s m.senderId).2 m.chatId).2.pendingUsers := hi
      rw [resolveChatName_pendingUsers] at hi1
      rcases resolveSender_pendingUsers_sub s m.senderId i hi1 with hmem | hnone
      · exact h.1 i hmem
      · exact hnone
    · intro i hi
      rw [dispStep_newMessage_chatsCache]
      have hi1 :
          (some i) ∈ (resolveChatName (resolveSender s m.senderId).2 m.chatId).2.pendingChats := hi
      rcases resolveChatName_pendingChats_sub _ m.chatId _ hi1 with hm1 | hn1
      · rcases resolveSender_pendingChats_sub s m.senderId _ hm1 with hm0 | hn0
        · exact h.2 i hm0
        · exact hn0
      · rw [resolveSender_chatsCache] at hn1
        exact hn1
  | userRec id uu fn ln =>
    cases id with
    | intId uid =>
      constructor
      · intro i hi
        rw [dispStep_userRec_intId] at hi ⊢
        obtain ⟨hm, hne⟩ := (mem_discardId _ _ _).mp hi
        have hne2 : ¬(uid = i) := fun hh => hne hh.symm
        simpa [cacheLookup, hne2] using h.1 i hm
      · intro i hi
        rw [dispStep_userRec_intId] at hi ⊢
        exact h.2 i hi
    | nonInt => exact h
    | missing => exact h
  | chatRec id t uu =>
    cases id with
    | intId cid =>
      constructor
      · intro i hi
        rw [dispStep_chatRec_intId] at hi ⊢
        exact h.1 i hi
      · intro i hi
        rw [dispStep_chatRec_intId] at hi ⊢
        obtain ⟨hm, hne⟩ := (mem_discardId _ _ _).mp hi
        have hne2 : ¬(cid = i) := fun hh => hne (by rw [hh])
        simpa [cacheLookup, hne2] using h.2 i hm
    | nonInt => exact h
    | missing => exact h
  | authUpdate st => exact h
  | other ty => exact h

theorem dispRun_inv (l : List Event) :
    ∀ s : DispState, DisjointInv s → DisjointInv (dispRun s l) := by
  induction l with
  | nil => exact fun s h => h
  | cons e rest ih => exact fun s h => ih (dispStep s e) (dispStep_inv s e h)

theorem initState_inv : DisjointInv initState :=
  ⟨fun i hi => absurd hi (List.not_mem_nil i), fun _ hi => absurd hi (List.not_mem_nil _)⟩

theorem resolveChatName_count (s : DispState) (c : Option Int) (X : Int) :
    countCmd (Command.getUser X) (resolveChatName s c).2.sent
      = countCmd (Command.getUser X) s.sent := by
  cases c with
  | none => rfl
  | some i =>
    cases h : cacheLookup s.chatsCache i with
    | some n => simp [resolveChatName, h]
    | none =>
      simp only [resolveChatName, h]
      split
      · rfl
      · show countCmd _ (s.sent ++ [Command.getChat (some i)]) = _
        rw [countCmd_append]
        simp [countCmd]

theorem resolveSender_count_pending (s : DispState) (sid : SenderId) (X : Int)
    (hp : X ∈ s.pendingUsers) :
    countCmd (Command.getUser X) (resolveSender s sid).2.sent
        = countCmd (Command.getUser X) s.sent
    ∧ X ∈ (resolveSender s sid).2.pendingUsers := by
  cases sid with
  | user uid =>
    cases uid with
    | none => exact ⟨rfl, hp⟩
    | some u =>
      cases h : cacheLookup s.usersCache u with
      | some n =>
        simp only [resolveSender, h]
        exact ⟨trivial, hp⟩
      | none =>
        simp only [resolveSender, h]
        by_cases hu : u ∈ s.pendingUsers
        · rw [if_pos hu]
          exact ⟨rfl, hp⟩
        · rw [if_neg hu]
          have hne : ¬(Command.getUser u = Command.getUser X) := by
            intro hh
            injection hh with h2
            subst h2
            exact hu hp
          constructor
          · show countCmd _ (s.sent ++ [Command.getUser u]) = _
            rw [countCmd_append]
            simp [countCmd, hne]
          · exact List.mem_cons_of_mem _ hp
  | chat cid =>
    cases h : optLookup s.chatsCache cid with
    | some n =>
      simp only [resolveSender, h]
      exact ⟨trivial, hp⟩
    | none =>
      simp only [resolveSender, h]
      split
      · exact ⟨rfl, hp⟩
      · constructor
        · show countCmd _ (s.sent ++ [Command.getChat cid]) = _
          rw [countCmd_append]
          simp [countCmd]
        · exact hp
  | absent => exact ⟨rfl, hp⟩

theorem dispStep_sent_user_miss (s : DispState) (m : Msg) (X : Int)
    (hm : m.senderId = SenderId.user (some X))
    (hc : cacheLookup s.usersCache X = none) (hp : X ∉ s.pendingUsers) :
    countCmd (Command.getUser X) (dispStep s (Event.newMessage m)).sent
        = countCmd (Command.getUser X) s.sent + 1
    ∧ X ∈ (dispStep s (Event.newMessage m)).pendingUsers := by
  have hrs : (resolveSender s m.senderId).2
      = { s with sent := s.sent ++ [Command.getUser X], pendingUsers := X :: s.pendingUsers } := by
    rw [hm]
    simp [resolveSender, hc, hp]
  constructor
  · show countCmd _ (resolveChatName (resolveSender s m.senderId).2 m.chatId).2.sent = _
    rw [resolveChatName_count, hrs]
    show countCmd _ (s.sent ++ [Command.getUser X]) = _
    rw [countCmd_append]
    simp [countCmd]
  · show X ∈ (resolveChatName (resolveSender s m.senderId).2 m.chatId).2.pendingUsers
    rw [resolveChatName_pendingUsers, hrs]
    exact List.mem_cons_self _ _

theorem dispStep_count_frame (s : DispState) (e : Event) (X : Int)
    (hp : X ∈ s.pendingUsers) (he : isUserRecFor X e = false) :
    countCmd (Command.getUser X) (dispStep s e).sent = countCmd (Command.getUser X) s.sent
    ∧ X ∈ (dispStep s e).pendingUsers := by
  cases e with
  | newMessage m =>
    obtain ⟨hc1, hp1⟩ := resolveSender_count_pending s m.senderId X hp
    constructor
    · show countCmd _ (resolveChatName (resolveSender s m.senderId).2 m.chatId).2.sent = _
      rw [resolveChatName_count, hc1]
    · show X ∈ (resolveChatName (resolveSender s m.senderId).2 m.chatId).2.pendingUsers
      rw [resolveChatName_pendingUsers]
      exact hp1
  | userRec id uu fn ln =>
    cases id with
    | intId i =>
      have hne : i ≠ X := by simpa [isUserRecFor] using he
      rw [dispStep_userRec_intId]
      exact ⟨rfl, (mem_discardId _ _ _).mpr ⟨hp, fun hh => hne hh.symm⟩⟩
    | nonInt => exact ⟨rfl, hp⟩
    | missing => exact ⟨rfl, hp⟩
  | chatRec id t uu =>
    cases id with
    | intId i =>
      rw [dispStep_chatRec_intId]
      exact ⟨rfl, hp⟩
    | nonInt => exact ⟨rfl, hp⟩
    | missing => exact ⟨rfl, hp⟩
  | authUpdate st => exact ⟨rfl, hp⟩
  | other ty => exact ⟨rfl, hp⟩

theorem dispRun_count_frame (l : List Event) :
    ∀ s : DispState, ∀ X : Int, (∀ e ∈ l, isUserRecFor X e = false) → X ∈ s.pendingUsers →
    countCmd (Command.getUser X) (dispRun s l).sent = countCmd (Command.getUser X) s.sent
    ∧ X ∈ (dispRun s l).pendingUsers := by
  induction l with
  | nil => exact fun s X _ hp => ⟨rfl, hp⟩
  | cons e rest ih =>
    intro s X h hp
    obtain ⟨hc1, hp1⟩ := dispStep_count_frame s e X hp (h e (List.mem_cons_self e rest))
    obtain ⟨hc2, hp2⟩ := ih (dispStep s e) X (fun x hx => h x (List.mem_cons_of_mem e hx)) hp1
    refine ⟨?_, hp2⟩
    have hstep : dispRun s (e :: rest) = dispRun (dispStep s e) rest := rfl
    rw [hstep, hc2, hc1]

/-- C1: Resolution is not retroactive, for resolution responses of both
entity kinds.  For any run of the dispatcher loop (`listen_for_messages`)
split as `pre`, then a resolution response — a `user` record for id `X` or a
`chat` record for id `C` — then `post` (containing no further resolution
response for that id of that kind): processing the response emits no record
and leaves all previously emitted records untouched; the cache of its kind
then holds the resolved display name; every continuation only appends to the
emitted records, so records formatted before the response keep the names
they were formatted with; and every record formatted during `post` that
references the resolved id — as user sender for `X`; as chat field or
chat-as-sender for `C` — uses the resolved name from the cache. -/
theorem C1_resolution_not_retroactive
    (pre post : List Event) (X C : Int) (uu fn ln title cu : Option String)
    (hpostU : ∀ e ∈ post, isUserRecFor X e = false)
    (hpostC : ∀ e ∈ post, isChatRecFor C e = false) :
    (dispStep (dispRun initState pre) (Event.userRec (IdVal.intId X) uu fn ln)).records
        = (dispRun initState pre).records
    ∧ cacheLookup
        (dispStep (dispRun initState pre) (Event.userRec (IdVal.intId X) uu fn ln)).usersCache X
        = some (userDisplay X uu (fn.getD "") (ln.getD ""))
    ∧ (∀ more : List Event, ∃ suffix,
        (dispRun (dispStep (dispRun initState pre) (Event.userRec (IdVal.intId X) uu fn ln))
            more).records
          = (dispRun initState pre).records ++ suffix)
    ∧ (∀ q m r, post = q ++ Event.newMessage m :: r →
        m.senderId = SenderId.user (some X) →
        (formatNew
            (dispRun (dispStep (dispRun initState pre) (Event.userRec (IdVal.intId X) uu fn ln))
              q) m).1.sender
          = userDisplay X uu (fn.getD "") (ln.getD ""))
    ∧ (dispStep (dispRun initState pre) (Event.chatRec (IdVal.intId C) title cu)).records
        = (dispRun initState pre).records
    ∧ cacheLookup
        (dispStep (dispRun initState pre) (Event.chatRec (IdVal.intId C) title cu)).chatsCache C
        = some (title.getD ("chat:" ++ toString C))
    ∧ (∀ more : List Event, ∃ suffix,
        (dispRun (dispStep (dispRun initState pre) (Event.chatRec (IdVal.intId C) title cu))
            more).records
          = (dispRun initState pre).records ++ suffix)
    ∧ (∀ q m r, post = q ++ Event.newMessage m :: r →
        m.chatId = some C →
        (formatNew
            (dispRun (dispStep (dispRun initState pre) (Event.chatRec (IdVal.intId C) title cu))
              q) m).1.chat
          = title.getD ("chat:" ++ toString C))
    ∧ (∀ q m r, post = q ++ Event.newMessage m :: r →
        m.senderId = SenderId.chat (some C) →
        (formatNew
            (dispRun (dispStep (dispRun initState pre) (Event.chatRec (IdVal.intId C) title cu))
              q) m).1.sender
          = title.getD ("chat:" ++ toString C)) := by
  have hrecU :
      (dispStep (dispRun initState pre) (Event.userRec (IdVal.intId X) uu fn ln)).records
        = (dispRun initState pre).records := by
    rw [dispStep_userRec_intId]
  have hcacheU :
      cacheLookup
          (dispStep (dispRun initState pre) (Event.userRec (IdVal.intId X) uu fn ln)).usersCache X
        = some (userDisplay X uu (fn.getD "") (ln.getD "")) := by
    rw [dispStep_userRec_intId]
    exact cacheLookup_cons_self _ X _
  have hrecC :
      (dispStep (dispRun initState pre) (Event.chatRec (IdVal.intId C) title cu)).records
        = (dispRun initState pre).records := by
    rw [dispStep_chatRec_intId]
  have hcacheC :
      cacheLookup
          (dispStep (dispRun initState pre) (Event.chatRec (IdVal.intId C) title cu)).chatsCache C
        = some (title.getD ("chat:" ++ toString C)) := by
    rw [dispStep_chatRec_intId]
    exact cacheLookup_cons_self _ C _
  have hstableC : ∀ q : List Event, (∀ e ∈ q, isChatRecFor C e = false) →
      cacheLookup
          (dispRun (dispStep (dispRun initState pre) (Event.chatRec (IdVal.intId C) title cu))
            q).chatsCache C
        = some (title.getD ("chat:" ++ toString C)) := by
    intro q hq2
    rw [dispRun_chatsCache_lookup q _ C hq2, hcacheC]
  refine ⟨hrecU, hcacheU, ?_, ?_, hrecC, hcacheC, ?_, ?_, ?_⟩
  · intro more
    obtain ⟨t, ht⟩ :=
      dispRun_records_append more
        (dispStep (dispRun initState pre) (Event.userRec (IdVal.intId X) uu fn ln))
    exact ⟨t, by rw [ht, hrecU]⟩
  · intro q m r hq hm
    have hq2 : ∀ e ∈ q, isUserRecFor X e = false := by
      intro e he
      exact hpostU e (by rw [hq]; exact List.mem_append_left _ he)
    have hstable :
        cacheLookup
            (dispRun (dispStep (dispRun initState pre) (Event.userRec (IdVal.intId X) uu fn ln))
              q).usersCache X
          = some (userDisplay X uu (fn.getD "") (ln.getD "")) := by
      rw [dispRun_usersCache_lookup q _ X hq2, hcacheU]
    exact formatNew_sender_cached _ m X _ hm hstable
  · intro more
    obtain ⟨t, ht⟩ :=
      dispRun_records_append more
        (dispStep (dispRun initState pre) (Event.chatRec (IdVal.intId C) title cu))
    exact ⟨t, by rw [ht, hrecC]⟩
  · intro q m r hq hm
    have hq2 : ∀ e ∈ q, isChatRecFor C e = false := by
      intro e he
      exact hpostC e (by rw [hq]; exact List.mem_append_left _ he)
    exact formatNew_chat_cached _ m C _ hm (hstableC q hq2)
  · intro q m r hq hm
    have hq2 : ∀ e ∈ q, isChatRecFor C e = false := by
      intro e he
      exact hpostC e (by rw [hq]; exact List.mem_append_left _ he)
    exact formatNew_senderChat_cached _ m C _ hm (hstableC q hq2)

/-- Witness for C1: after the response resolving user 5 to `@alice`, the
users cache holds `@alice` and a message from user 5 formatted afterwards
carries `@alice` as its sender; after the response resolving chat 9 to
`Lobby`, the chats cache holds `Lobby` and later messages use it both as
the chat name and as the chat-as-sender name. -/
theorem C1_witness :
    cacheLookup
        (dispStep (dispRun initState [])
          (Event.userRec (IdVal.intId 5) (some "alice") none none)).usersCache 5
      = some "@alice"
    ∧ (formatNew
        (dispRun (dispStep (dispRun initState [])
          (Event.userRec (IdVal.intId 5) (some "alice") none none)) [])
        ⟨some 9, SenderId.user (some 5), ⟨some "messageText", some "hi"⟩, some 0⟩).1.sender
      = "@alice"
    ∧ cacheLookup
        (dispStep (dispRun initState [])
          (Event.chatRec (IdVal.intId 9) (some "Lobby") none)).chatsCache 9
      = some "Lobby"
    ∧ (formatNew
        (dispRun (dispStep (dispRun initState [])
          (Event.chatRec (IdVal.intId 9) (some "Lobby") none)) [])
        ⟨some 9, SenderId.user (some 5), ⟨some "messageText", some "hi"⟩, some 0⟩).1.chat
      = "Lobby"
    ∧ (formatNew
        (dispRun (dispStep (dispRun initState [])
          (Event.chatRec (IdVal.intId 9) (some "Lobby") none))
          [Event.newMessage ⟨some 9, SenderId.user (some 5), ⟨some "messageText", some "hi"⟩,
            some 0⟩])
        ⟨none, SenderId.chat (some 9), ⟨some "messageText", some "yo"⟩, none⟩).1.sender
      = "Lobby" := by
  have h := C1_resolution_not_retroactive []
    [Event.newMessage ⟨some 9, SenderId.user (some 5), ⟨some "messageText", some "hi"⟩, some 0⟩,
     Event.newMessage ⟨none, SenderId.chat (some 9), ⟨some "messageText", some "yo"⟩, none⟩]
    5 9 (some "alice") none none (some "Lobby") none (by decide) (by decide)
  have hd : userDisplay 5 (some "alice") (Option.getD none "") (Option.getD none "") = "@alice" := by
    decide
  have hdc : (some "Lobby" : Option String).getD ("chat:" ++ toString (9 : Int)) = "Lobby" := by
    decide
  refine ⟨?_, ?_, ?_, ?_, ?_⟩
  · have h1 := h.2.1
    rw [hd] at h1
    exact h1
  · have h2 := h.2.2.2.1 [] ⟨some 9, SenderId.user (some 5), ⟨some "messageText", some "hi"⟩,
      some 0⟩
      [Event.newMessage ⟨none, SenderId.chat (some 9), ⟨some "messageText", some "yo"⟩, none⟩]
      rfl rfl
    rw [hd] at h2
    exact h2
  · have h3 := h.2.2.2.2.2.1
    rw [hdc] at h3
    exact h3
  · have h4 := h.2.2.2.2.2.2.2.1 []
      ⟨some 9, SenderId.user (some 5), ⟨some "messageText", some "hi"⟩, some 0⟩
      [Event.newMessage ⟨none, SenderId.chat (some 9), ⟨some "messageText", some "yo"⟩, none⟩]
      rfl rfl
    rw [hdc] at h4
    exact h4
  · have h5 := h.2.2.2.2.2.2.2.2
      [Event.newMessage ⟨some 9, SenderId.user (some 5), ⟨some "messageText", some "hi"⟩, some 0⟩]
      ⟨none, SenderId.chat (some 9), ⟨some "messageText", some "yo"⟩, none⟩ [] rfl rfl
    rw [hdc] at h5
    exact h5

theorem resolveChatName_pending_keep (s : DispState) (c : Int)
    (hc : cacheLookup s.chatsCache c = none) (hp : (some c) ∈ s.pendingChats) :
    resolveChatName s (some c) = ("chat:" ++ toString c, s) := by
  simp [resolveChatName, hc, hp]

theorem resolveChatName_miss_step (s : DispState) (c : Int)
    (hc : cacheLookup s.chatsCache c = none) (hp : (some c) ∉ s.pendingChats) :
    resolveChatName s (some c) = ("chat:" ++ toString c,
      { s with sent := s.sent ++ [Command.getChat (some c)],
               pendingChats := some c :: s.pendingChats }) := by
  simp [resolveChatName, hc, hp]

theorem resolveSender_chat_miss_step (s : DispState) (cid : Option Int)
    (hc : optLookup s.chatsCache cid = none) (hp : cid ∉ s.pendingChats) :
    resolveSender s (SenderId.chat cid) = ("chat:" ++ optIdStr cid,
      { s with sent := s.sent ++ [Command.getChat cid],
               pendingChats := cid :: s.pendingChats }) := by
  simp [resolveSender, hc, hp]

theorem resolveSender_count_getChat_pending (s : DispState) (sid : SenderId) (c : Option Int)
    (hp : c ∈ s.pendingChats) :
    countCmd (Command.getChat c) (resolveSender s sid).2.sent
        = countCmd (Command.getChat c) s.sent
    ∧ c ∈ (resolveSender s sid).2.pendingChats := by
  cases sid with
  | user uid =>
    cases uid with
    | none => exact ⟨rfl, hp⟩
    | some u =>
      cases h : cacheLookup s.usersCache u with
      | some n =>
        simp only [resolveSender, h]
        exact ⟨trivial, hp⟩
      | none =>
        simp only [resolveSender, h]
        by_cases hu : u ∈ s.pendingUsers
        · rw [if_pos hu]
          exact ⟨rfl, hp⟩
        · rw [if_neg hu]
          constructor
          · show countCmd _ (s.sent ++ [Command.getUser u]) = _
            rw [countCmd_append]
            simp [countCmd]
          · exact hp
  | chat cid =>
    cases h : optLookup s.chatsCache cid with
    | some n =>
      simp only [resolveSender, h]
      exact ⟨trivial, hp⟩
    | none =>
      simp only [resolveSender, h]
      by_cases hcid : cid ∈ s.pendingChats
      · rw [if_pos hcid]
        exact ⟨rfl, hp⟩
      · rw [if_neg hcid]
        have hne : ¬(Command.getChat cid = Command.getChat c) := by
          intro hh
          injection hh with h2
          subst h2
          exact hcid hp
        constructor
        · show countCmd _ (s.sent ++ [Command.getChat cid]) = _
          rw [countCmd_append]
          simp [countCmd, hne]
        · exact List.mem_cons_of_mem _ hp
  | absent => exact ⟨rfl, hp⟩

theorem resolveSender_no_chat_touch (s : DispState) (sid : SenderId) (c : Option Int)
    (hsid : sid ≠ SenderId.chat c) :
    countCmd (Command.getChat c) (resolveSender s sid).2.sent
        = countCmd (Command.getChat c) s.sent
    ∧ (c ∉ s.pendingChats → c ∉ (resolveSender s sid).2.pendingChats) := by
  cases sid with
  | user uid =>
    cases uid with
    | none => exact ⟨rfl, fun h => h⟩
    | some u =>
      cases h : cacheLookup s.usersCache u with
      | some n =>
        simp only [resolveSender, h]
        exact ⟨trivial, fun hh => hh⟩
      | none =>
        simp only [resolveSender, h]
        by_cases hu : u ∈ s.pendingUsers
        · rw [if_pos hu]
          exact ⟨rfl, fun hh => hh⟩
        · rw [if_neg hu]
          constructor
          · show countCmd _ (s.sent ++ [Command.getUser u]) = _
            rw [countCmd_append]
            simp [countCmd]
          · exact fun hh => hh
  | chat cid =>
    have hne : cid ≠ c := by
      intro hh
      exact hsid (by rw [hh])
    cases h : optLookup s.chatsCache cid with
    | some n =>
      simp only [resolveSender, h]
      exact ⟨trivial, fun hh => hh⟩
    | none =>
      simp only [resolveSender, h]
      by_cases hcid : cid ∈ s.pendingChats
      · rw [if_pos hcid]
        exact ⟨rfl, fun hh => hh⟩
      · rw [if_neg hcid]
        have hnec : ¬(Command.getChat cid = Command.getChat c) := by
          intro hh
          injection hh with h2
          exact hne h2
        constructor
        · show countCmd _ (s.sent ++ [Command.getChat cid]) = _
          rw [countCmd_append]
          simp [countCmd, hnec]
        · intro hnp hmem
          rcases List.mem_cons.mp hmem with hh | hh
          · exact hne hh.symm
          · exact hnp hh
  | absent => exact ⟨rfl, fun h => h⟩

theorem resolveChatName_count_getChat_pending (s : DispState) (cid : Option Int) (c : Option Int)
    (hp : c ∈ s.pendingChats) :
    countCmd (Command.getChat c) (resolveChatName s cid).2.sent
        = countCmd (Command.getChat c) s.sent
    ∧ c ∈ (resolveChatName s cid).2.pendingChats := by
  cases cid with
  | none => exact ⟨rfl, hp⟩
  | some i =>
    cases h : cacheLookup s.chatsCache i with
    | some n =>
      simp only [resolveChatName, h]
      exact ⟨trivial, hp⟩
    | none =>
      simp only [resolveChatName, h]
      by_cases hi : (some i) ∈ s.pendingChats
      · rw [if_pos hi]
        exact ⟨rfl, hp⟩
      · rw [if_neg hi]
        have hne : ¬(Command.getChat (some i) = Command.getChat c) := by
          intro hh
          injection hh with h2
          subst h2
          exact hi hp
        constructor
        · show countCmd _ (s.sent ++ [Command.getChat (some i)]) = _
          rw [countCmd_append]
          simp [countCmd, hne]
        · exact List.mem_cons_of_mem _ hp

theorem dispStep_sent_chat_miss (s : DispState) (m : Msg) (C : Int)
    (hm : m.chatId = some C)
    (hc : cacheLookup s.chatsCache C = none) (hp : (some C) ∉ s.pendingChats) :
    countCmd (Command.getChat (some C)) (dispStep s (Event.newMessage m)).sent
        = countCmd (Command.getChat (some C)) s.sent + 1
    ∧ (some C) ∈ (dispStep s (Event.newMessage m)).pendingChats := by
  by_cases hs : m.senderId = SenderId.chat (some C)
  · have e1 := resolveSender_chat_miss_step s (some C) hc hp
    have hcc : cacheLookup
        (resolveSender s (SenderId.chat (some C))).2.chatsCache C = none := by
      rw [e1]
      exact hc
    have hpc : (some C) ∈ (resolveSender s (SenderId.chat (some C))).2.pendingChats := by
      rw [e1]
      exact List.mem_cons_self _ _
    have e2 := resolveChatName_pending_keep (resolveSender s (SenderId.chat (some C))).2 C hcc hpc
    constructor
    · show countCmd _ (resolveChatName (resolveSender s m.senderId).2 m.chatId).2.sent = _
      rw [hs, hm, e2, e1]
      show countCmd _ (s.sent ++ [Command.getChat (some C)]) = _
      rw [countCmd_append]
      simp [countCmd]
    · show (some C) ∈ (resolveChatName (resolveSender s m.senderId).2 m.chatId).2.pendingChats
      rw [hs, hm, e2]
      exact hpc
  · obtain ⟨cnt, keep⟩ := resolveSender_no_chat_touch s m.senderId (some C) hs
    have hcc : cacheLookup (resolveSender s m.senderId).2.chatsCache C = none := by
      rw [resolveSender_chatsCache]
      exact hc
    have hnp2 : (some C) ∉ (resolveSender s m.senderId).2.pendingChats := keep hp
    have e2 := resolveChatName_miss_step (resolveSender s m.senderId).2 C hcc hnp2
    constructor
    · show countCmd _ (resolveChatName (resolveSender s m.senderId).2 m.chatId).2.sent = _
      rw [hm, e2]
      show countCmd _ ((resolveSender s m.senderId).2.sent ++ [Command.getChat (some C)]) = _
      rw [countCmd_append, cnt]
      simp [countCmd]
    · show (some C) ∈ (resolveChatName (resolveSender s m.senderId).2 m.chatId).2.pendingChats
      rw [hm, e2]
      exact List.mem_cons_self _ _

theorem dispStep_count_chat_frame (s : DispState) (e : Event) (C : Int)
    (hp : (some C) ∈ s.pendingChats) (he : isChatRecFor C e = false) :
    countCmd (Command.getChat (some C)) (dispStep s e).sent
        = countCmd (Command.getChat (some C)) s.sent
    ∧ (some C) ∈ (dispStep s e).pendingChats := by
  cases e with
  | newMessage m =>
    obtain ⟨c1, p1⟩ := resolveSender_count_getChat_pending s m.senderId (some C) hp
    obtain ⟨c2, p2⟩ :=
      resolveChatName_count_getChat_pending (resolveSender s m.senderId).2 m.chatId (some C) p1
    constructor
    · show countCmd _ (resolveChatName (resolveSender s m.senderId).2 m.chatId).2.sent = _
      rw [c2, c1]
    · exact p2
  | userRec id uu fn ln =>
    cases id with
    | intId i =>
      rw [dispStep_userRec_intId]
      exact ⟨rfl, hp⟩
    | nonInt => exact ⟨rfl, hp⟩
    | missing => exact ⟨rfl, hp⟩
  | chatRec id t uu =>
    cases id with
    | intId i =>
      have hne : i ≠ C := by simpa [isChatRecFor] using he
      rw [dispStep_chatRec_intId]
      refine ⟨rfl, (mem_discardId _ _ _).mpr ⟨hp, ?_⟩⟩
      intro hh
      exact hne (Option.some.inj hh).symm
    | nonInt => exact ⟨rfl, hp⟩
    | missing => exact ⟨rfl, hp⟩
  | authUpdate st => exact ⟨rfl, hp⟩
  | other ty => exact ⟨rfl, hp⟩

theorem dispRun_count_chat_frame (l : List Event) :
    ∀ s : DispState, ∀ C : Int, (∀ e ∈ l, isChatRecFor C e = false) →
    (some C) ∈ s.pendingChats →
    countCmd (Command.getChat (some C)) (dispRun s l).sent
        = countCmd (Command.getChat (some C)) s.sent
    ∧ (some C) ∈ (dispRun s l).pendingChats := by
  induction l with
  | nil => exact fun s C _ hp => ⟨rfl, hp⟩
  | cons e rest ih =>
    intro s C h hp
    obtain ⟨hc1, hp1⟩ := dispStep_count_chat_frame s e C hp (h e (List.mem_cons_self e rest))
    obtain ⟨hc2, hp2⟩ := ih (dispStep s e) C (fun x hx => h x (List.mem_cons_of_mem e hx)) hp1
    refine ⟨?_, hp2⟩
    have hstep : dispRun s (e :: rest) = dispRun (dispStep s e) rest := rfl
    rw [hstep, hc2, hc1]

/-- C4: Idempotent miss, for both entity kinds.  (i) In every state
reachable by the dispatcher loop from its empty start, an id pending in a
PendingSet is not resolved in the cache of its kind.  (ii) Processing two
ContentEvents whose sender is the same unresolved, non-pending user id `X`
issues exactly one `getUser X` command.  (iii) While `X` is pending,
processing any sequence of events that contains no `user` resolution
response for `X` issues no further `getUser X` command.  (iv) Processing two
ContentEvents referencing the same unresolved, non-pending chat id `Cid`
issues exactly one `getChat Cid` command.  (v) A single message that
references `Cid` both as chat-as-sender and as its chat field issues exactly
one `getChat Cid` — the sender resolution marks the id pending in the shared
`pending_chat_ids`, so the chat-name resolution of the same message does not
re-issue it.  (vi) While `Cid` is pending, processing any sequence of events
that contains no `chat` resolution response for `Cid` issues no further
`getChat Cid` command. -/
theorem C4_idempotent_miss
    (events tail ctail : List Event) (X Cid : Int) (m1 m2 mc1 mc2 msb : Msg)
    (h1 : m1.senderId = SenderId.user (some X)) (h2 : m2.senderId = SenderId.user (some X))
    (hnc : cacheLookup (dispRun initState events).usersCache X = none)
    (hnp : X ∉ (dispRun initState events).pendingUsers)
    (htail : ∀ e ∈ tail, isUserRecFor X e = false)
    (hmc1 : mc1.chatId = some Cid) (hmc2 : mc2.chatId = some Cid)
    (hsb1 : msb.senderId = SenderId.chat (some Cid)) (hsb2 : msb.chatId = some Cid)
    (hncc : cacheLookup (dispRun initState events).chatsCache Cid = none)
    (hnpc : (some Cid) ∉ (dispRun initState events).pendingChats)
    (hctail : ∀ e ∈ ctail, isChatRecFor Cid e = false) :
    ((∀ i ∈ (dispRun initState events).pendingUsers,
        cacheLookup (dispRun initState events).usersCache i = none)
      ∧ (∀ i : Int, (some i) ∈ (dispRun initState events).pendingChats →
          cacheLookup (dispRun initState events).chatsCache i = none))
    ∧ countCmd (Command.getUser X)
        (dispStep (dispStep (dispRun initState events) (Event.newMessage m1))
          (Event.newMessage m2)).sent
      = countCmd (Command.getUser X) (dispRun initState events).sent + 1
    ∧ (∀ s : DispState, X ∈ s.pendingUsers →
        countCmd (Command.getUser X) (dispRun s tail).sent
          = countCmd (Command.getUser X) s.sent)
    ∧ countCmd (Command.getChat (some Cid))
        (dispStep (dispStep (dispRun initState events) (Event.newMessage mc1))
          (Event.newMessage mc2)).sent
      = countCmd (Command.getChat (some Cid)) (dispRun initState events).sent + 1
    ∧ countCmd (Command.getChat (some Cid))
        (dispStep (dispRun initState events) (Event.newMessage msb)).sent
      = countCmd (Command.getChat (some Cid)) (dispRun initState events).sent + 1
    ∧ (∀ s : DispState, (some Cid) ∈ s.pendingChats →
        countCmd (Command.getChat (some Cid)) (dispRun s ctail).sent
          = countCmd (Command.getChat (some Cid)) s.sent) := by
  refine ⟨dispRun_inv events initState initState_inv, ?_, ?_, ?_, ?_, ?_⟩
  · obtain ⟨hcnt1, hpend1⟩ := dispStep_sent_user_miss (dispRun initState events) m1 X h1 hnc hnp
    obtain ⟨hcnt2, _⟩ :=
      dispStep_count_frame (dispStep (dispRun initState events) (Event.newMessage m1))
        (Event.newMessage m2) X hpend1 rfl
    rw [hcnt2, hcnt1]
  · intro s hp
    exact (dispRun_count_frame tail s X htail hp).1
  · obtain ⟨hcnt1, hpend1⟩ :=
      dispStep_sent_chat_miss (dispRun initState events) mc1 Cid hmc1 hncc hnpc
    obtain ⟨hcnt2, _⟩ :=
      dispStep_count_chat_frame (dispStep (dispRun initState events) (Event.newMessage mc1))
        (Event.newMessage mc2) Cid hpend1 rfl
    rw [hcnt2, hcnt1]
  · exact (dispStep_sent_chat_miss (dispRun initState events) msb Cid hsb2 hncc hnpc).1
  · intro s hp
    exact (dispRun_count_chat_frame ctail s Cid hctail hp).1

/-- Witness for C4: from the empty start, two messages from the unresolved
user 1 issue exactly one `getUser 1`; two messages in the unresolved chat 7
issue exactly one `getChat 7`; and a single message sent on behalf of chat 7
in chat 7 also issues exactly one `getChat 7` across its sender and
chat-name resolutions. -/
theorem C4_witness :
    countCmd (Command.getUser 1)
      (dispStep (dispStep (dispRun initState [])
          (Event.newMessage ⟨some 3, SenderId.user (some 1), ⟨some "messageText", some "a"⟩, none⟩))
        (Event.newMessage ⟨some 3, SenderId.user (some 1), ⟨some "messageText", some "a"⟩, none⟩)).sent
      = countCmd (Command.getUser 1) (dispRun initState []).sent + 1
    ∧ countCmd (Command.getChat (some 7))
        (dispStep (dispStep (dispRun initState [])
            (Event.newMessage ⟨some 7, SenderId.absent, ⟨some "messageText", some "b"⟩, none⟩))
          (Event.newMessage ⟨some 7, SenderId.absent, ⟨some "messageText", some "b"⟩, none⟩)).sent
      = countCmd (Command.getChat (some 7)) (dispRun initState []).sent + 1
    ∧ countCmd (Command.getChat (some 7))
        (dispStep (dispRun initState [])
          (Event.newMessage ⟨some 7, SenderId.chat (some 7), ⟨some "messageText", some "c"⟩,
            none⟩)).sent
      = countCmd (Command.getChat (some 7)) (dispRun initState []).sent + 1 := by
  have h := C4_idempotent_miss []
    [Event.newMessage ⟨some 3, SenderId.user (some 1), ⟨some "messageText", some "a"⟩, none⟩]
    [Event.newMessage ⟨some 7, SenderId.absent, ⟨some "messageText", some "b"⟩, none⟩]
    1 7
    ⟨some 3, SenderId.user (some 1), ⟨some "messageText", some "a"⟩, none⟩
    ⟨some 3, SenderId.user (some 1), ⟨some "messageText", some "a"⟩, none⟩
    ⟨some 7, SenderId.absent, ⟨some "messageText", some "b"⟩, none⟩
    ⟨some 7, SenderId.absent, ⟨some "messageText", some "b"⟩, none⟩
    ⟨some 7, SenderId.chat (some 7), ⟨some "messageText", some "c"⟩, none⟩
    rfl rfl (by decide) (by decide) (by decide)
    rfl rfl rfl rfl (by decide) (by decide) (by decide)
  exact ⟨h.2.1, h.2.2.2.1, h.2.2.2.2.1⟩

theorem authLoop_cons_nonterminal (e : Event) (l : List Event) (sent : List AuthCmd)
    (he : isTerminalAuth e = false) :
    ∃ sent2, authLoop (e :: l) sent = authLoop l sent2 := by
  cases e with
  | authUpdate st =>
    simp only [isTerminalAuth, decide_eq_false_iff_not, not_or] at he
    by_cases c1 : st.getD "" = "authorizationStateWaitTdlibParameters"
    · exact ⟨sent ++ [AuthCmd.setTdlibParameters], by simp [authLoop, c1]⟩
    by_cases c2 : st.getD "" = "authorizationStateWaitEncryptionKey"
    · exact ⟨sent ++ [AuthCmd.checkDatabaseEncryptionKey], by simp [authLoop, c1, c2]⟩
    by_cases c3 : st.getD "" = "authorizationStateWaitPhoneNumber"
    · exact ⟨sent ++ [AuthCmd.setAuthenticationPhoneNumber], by simp [authLoop, c1, c2, c3]⟩
    by_cases c4 : st.getD "" = "authorizationStateWaitCode"
    · exact ⟨sent ++ [AuthCmd.checkAuthenticationCode], by simp [authLoop, c1, c2, c3, c4]⟩
    by_cases c5 : st.getD "" = "authorizationStateWaitPassword"
    · exact ⟨sent ++ [AuthCmd.checkAuthenticationPassword], by simp [authLoop, c1, c2, c3, c4, c5]⟩
    by_cases c6 : st.getD "" = "authorizationStateWaitRegistration"
    · exact ⟨sent ++ [AuthCmd.registerUser], by simp [authLoop, c1, c2, c3, c4, c5, c6]⟩
    exact ⟨sent, by simp [authLoop, c1, c2, c3, c4, c5, c6, he.1, he.2]⟩
  | newMessage m => exact ⟨sent, rfl⟩
  | userRec id uu fn ln => exact ⟨sent, rfl⟩
  | chatRec id t uu => exact ⟨sent, rfl⟩
  | other ty => exact ⟨sent, rfl⟩

theorem authLoop_ready (st : Option String) (l : List Event) (sent : List AuthCmd)
    (h : st.getD "" = "authorizationStateReady") :
    authLoop (Event.authUpdate st :: l) sent = (AuthResult.success, sent) := by
  simp [authLoop, h]

theorem authLoop_closed (st : Option String) (l : List Event) (sent : List AuthCmd)
    (h : st.getD "" = "authorizationStateClosed") :
    authLoop (Event.authUpdate st :: l) sent = (AuthResult.closedError, sent) := by
  simp [authLoop, h]

theorem authLoop_no_terminal (l : List Event) :
    ∀ sent : List AuthCmd, (∀ e ∈ l, isTerminalAuth e = false) →
    (authLoop l sent).1 = AuthResult.waiting := by
  induction l with
  | nil => intro sent _; rfl
  | cons e rest ih =>
    intro sent h
    obtain ⟨sent2, hs⟩ := authLoop_cons_nonterminal e rest sent (h e (List.mem_cons_self e rest))
    rw [hs]
    exact ih sent2 (fun x hx => h x (List.mem_cons_of_mem e hx))

theorem authLoop_skip (pre : List Event) :
    ∀ l : List Event, ∀ sent : List AuthCmd, (∀ e ∈ pre, isTerminalAuth e = false) →
    ∃ sent2, authLoop (pre ++ l) sent = authLoop l sent2 := by
  induction pre with
  | nil => exact fun l sent _ => ⟨sent, rfl⟩
  | cons e rest ih =>
    intro l sent h
    obtain ⟨s1, hs1⟩ :=
      authLoop_cons_nonterminal e (rest ++ l) sent (h e (List.mem_cons_self e rest))
    obtain ⟨s2, hs2⟩ := ih l s1 (fun x hx => h x (List.mem_cons_of_mem e hx))
    exact ⟨s2, by rw [List.cons_append, hs1, hs2]⟩

/-- C5: The authorisation loop has exactly the two terminal outcomes.  After
any sequence of events containing no terminal authorisation state, an
`authorizationStateReady` update makes the loop return successfully and an
`authorizationStateClosed` update makes it raise the fatal error — in both
cases whatever events follow are irrelevant; and as long as no terminal
state has arrived (non-authorisation events and transient states included),
the loop is still running. -/
theorem C5_auth_terminal
    (pre rest l : List Event) (sent : List AuthCmd)
    (hpre : ∀ e ∈ pre, isTerminalAuth e = false)
    (hl : ∀ e ∈ l, isTerminalAuth e = false) :
    (authLoop (pre ++ Event.authUpdate (some "authorizationStateReady") :: rest) sent).1
        = AuthResult.success
    ∧ (authLoop (pre ++ Event.authUpdate (some "authorizationStateClosed") :: rest) sent).1
        = AuthResult.closedError
    ∧ (authLoop l sent).1 = AuthResult.waiting := by
  refine ⟨?_, ?_, authLoop_no_terminal l sent hl⟩
  · obtain ⟨s2, hs⟩ := authLoop_skip pre _ sent hpre
    rw [hs, authLoop_ready (some "authorizationStateReady") rest s2 rfl]
  · obtain ⟨s2, hs⟩ := authLoop_skip pre _ sent hpre
    rw [hs, authLoop_closed (some "authorizationStateClosed") rest s2 rfl]

/-- Witness for C5 on a concrete run: a non-authorisation event and a
transient state precede `Ready`; trailing events are ignored. -/
theorem C5_witness :
    (authLoop [Event.other "updateOption",
        Event.authUpdate (some "authorizationStateWaitCode"),
        Event.authUpdate (some "authorizationStateReady"),
        Event.other "late"] []).1
      = AuthResult.success := by
  have h := C5_auth_terminal
    [Event.other "updateOption", Event.authUpdate (some "authorizationStateWaitCode")]
    [Event.other "late"]
    [Event.authUpdate (some "authorizationStateWaitPhoneNumber")] []
    (by decide) (by decide)
  exact h.1

/-- C6: For an id never seen before (absent from the cache of its kind), the
formatted record uses the placeholder `"<kind>:<id>"` — `user:<id>` for a
user sender, `chat:<id>` for the chat and for a chat-as-sender — and the
placeholder is not stored: processing the message leaves both caches
unchanged. -/
theorem C6_placeholder_first_use
    (s : DispState) (m1 m2 : Msg) (X C Y : Int)
    (h1 : m1.senderId = SenderId.user (some X))
    (hX : cacheLookup s.usersCache X = none)
    (hac : m1.chatId = some C)
    (hC : cacheLookup s.chatsCache C = none)
    (h2 : m2.senderId = SenderId.chat (some Y))
    (hY : cacheLookup s.chatsCache Y = none) :
    (formatNew s m1).1.sender = "user:" ++ toString X
    ∧ (formatNew s m1).1.chat = "chat:" ++ toString C
    ∧ (formatNew s m2).1.sender = "chat:" ++ toString Y
    ∧ (dispStep s (Event.newMessage m1)).usersCache = s.usersCache
    ∧ (dispStep s (Event.newMessage m1)).chatsCache = s.chatsCache := by
  refine ⟨?_, ?_, ?_, dispStep_newMessage_usersCache s m1, dispStep_newMessage_chatsCache s m1⟩
  · show (resolveSender s m1.senderId).1 = _
    rw [h1]
    exact resolveSender_user_miss_name s X hX
  · show (resolveChatName (resolveSender s m1.senderId).2 m1.chatId).1 = _
    rw [hac]
    apply resolveChatName_miss_name
    rw [resolveSender_chatsCache]
    exact hC
  · show (resolveSender s m2.senderId).1 = _
    rw [h2]
    exact resolveSender_chat_miss_name s (some Y) hY

/-- Witness for C6: a first message from unknown user 5 in unknown chat 9,
and one sent on behalf of unknown chat 4, from the empty state. -/
theorem C6_witness :
    (formatNew initState ⟨some 9, SenderId.user (some 5), ⟨some "messageText", some "hi"⟩,
        none⟩).1.sender = "user:5"
    ∧ (formatNew initState ⟨some 9, SenderId.user (some 5), ⟨some "messageText", some "hi"⟩,
        none⟩).1.chat = "chat:9"
    ∧ (formatNew initState ⟨some 9, SenderId.chat (some 4), ⟨some "messageText", some "hi"⟩,
        none⟩).1.sender = "chat:4" := by
  have h := C6_placeholder_first_use initState
    ⟨some 9, SenderId.user (some 5), ⟨some "messageText", some "hi"⟩, none⟩
    ⟨some 9, SenderId.chat (some 4), ⟨some "messageText", some "hi"⟩, none⟩
    5 9 4 rfl (by decide) rfl (by decide) rfl (by decide)
  exact ⟨h.1, h.2.1, h.2.2.1⟩

/-- C7: Content extraction.  A `messageText` content yields the literal
nested text in the record's text field; any other content kind (including a
missing one, which prints as `None`) yields the placeholder string naming
that kind. -/
theorem C7_content_extraction (s : DispState) (m : Msg) :
    (m.content.ty = some "messageText" →
      (formatNew s m).1.text = m.content.textText.getD "")
    ∧ (∀ k, m.content.ty = some k → k ≠ "messageText" →
      (formatNew s m).1.text = "<Unsupported message type " ++ k ++ ">")
    ∧ (m.content.ty = none →
      (formatNew s m).1.text = "<Unsupported message type None>") := by
  refine ⟨?_, ?_, ?_⟩
  · intro h
    show extractText m.content = _
    simp [extractText, h]
  · intro k hk hne
    show extractText m.content = _
    have hnm : ¬(m.content.ty = some "messageText") := by
      rw [hk]
      simpa using hne
    unfold extractText
    rw [if_neg hnm, hk]
    simp [tyStr]
  · intro h
    show extractText m.content = _
    have hnm : ¬(m.content.ty = some "messageText") := by simp [h]
    unfold extractText
    rw [if_neg hnm, h]
    decide

/-- Witness for C7: `"hello"` text is passed through; `messagePhoto` yields
the placeholder naming it. -/
theorem C7_witness :
    (formatNew initState ⟨some 1, SenderId.absent, ⟨some "messageText", some "hello"⟩,
        none⟩).1.text = "hello"
    ∧ (formatNew initState ⟨some 1, SenderId.absent, ⟨some "messagePhoto", none⟩,
        none⟩).1.text = "<Unsupported message type messagePhoto>" := by
  constructor
  · have h := (C7_content_extraction initState
      ⟨some 1, SenderId.absent, ⟨some "messageText", some "hello"⟩, none⟩).1 rfl
    simpa using h
  · exact (C7_content_extraction initState
      ⟨some 1, SenderId.absent, ⟨some "messagePhoto", none⟩, none⟩).2.1
      "messagePhoto" rfl (by decide)

theorem string_append_ne_empty_left (a b : String) (ha : a ≠ "") : a ++ b ≠ "" := by
  obtain ⟨da⟩ := a
  obtain ⟨db⟩ := b
  intro h
  apply ha
  have hd : da ++ db = ([] : List Char) := congrArg String.data h
  have hda : da = [] := (List.append_eq_nil.mp hd).1
  rw [hda]

theorem at_append_ne_empty (u : String) : "@" ++ u ≠ "" :=
  string_append_ne_empty_left "@" u (by decide)

theorem userDisplay_at (uid : Int) (u f l : String) (hu : u ≠ "") :
    userDisplay uid (some u) f l = "@" ++ u := by
  dsimp only [userDisplay]
  rw [if_neg hu, if_neg (at_append_ne_empty u)]

theorem userDisplay_names (uid : Int) (f l : String)
    (hf : stripStr f ≠ "") (hl : stripStr l ≠ "") :
    userDisplay uid none f l = stripStr f ++ " " ++ stripStr l := by
  dsimp only [userDisplay, joinNames]
  rw [if_neg hf, if_neg hl,
    if_neg (string_append_ne_empty_left _ _ (string_append_ne_empty_left _ _ hf))]

theorem userDisplay_fallback (uid : Int) (f l : String)
    (hf : stripStr f = "") (hl : stripStr l = "") :
    userDisplay uid none f l = "user:" ++ toString uid := by
  dsimp only [userDisplay, joinNames]
  rw [hf, hl]
  simp

theorem dispStep_userRec_lookup (s : DispState) (uid : Int) (uu fn ln : Option String) :
    cacheLookup (dispStep s (Event.userRec (IdVal.intId uid) uu fn ln)).usersCache uid
      = some (userDisplay uid uu (fn.getD "") (ln.getD "")) := by
  rw [dispStep_userRec_intId]
  exact cacheLookup_cons_self _ _ _

/-- C8 counterexample: a `chat` resolution response carrying both a title
and a username stores the title, not `"@" ++ username`, so the "prefer
`@username`" form stated for all resolution responses fails on chat
records. -/
theorem C8_counterexample :
    cacheLookup
        (dispStep initState
          (Event.chatRec (IdVal.intId 7) (some "Bar") (some "foo"))).chatsCache 7
      = some "Bar"
    ∧ some "Bar" ≠ some ("@" ++ "foo") := by
  constructor
  · decide
  · decide

/-- C8 (amended): a `user` resolution response with integer id upserts the
users cache with `"@username"` when the username is present and nonempty,
else the stripped first/last names joined with a space, else the numeric
placeholder, and removes the id from the pending users; a `chat` response
with integer id upserts the chats cache with its title (any username on the
record is ignored), defaulting to the numeric placeholder when the title is
missing, and removes the id from the pending chats; a later response for the
same id overwrites the cached value. -/
theorem C8_amended
    (s : DispState) (uid cid : Int) (u u2 f l f0 l0 t : String)
    (uu fn ln title : Option String)
    (hu : u ≠ "") (hu2 : u2 ≠ "")
    (hf : stripStr f ≠ "") (hl : stripStr l ≠ "")
    (hf0 : stripStr f0 = "") (hl0 : stripStr l0 = "") :
    cacheLookup (dispStep s (Event.userRec (IdVal.intId uid) (some u) fn ln)).usersCache uid
        = some ("@" ++ u)
    ∧ cacheLookup
        (dispStep s (Event.userRec (IdVal.intId uid) none (some f) (some l))).usersCache uid
        = some (stripStr f ++ " " ++ stripStr l)
    ∧ cacheLookup
        (dispStep s (Event.userRec (IdVal.intId uid) none (some f0) (some l0))).usersCache uid
        = some ("user:" ++ toString uid)
    ∧ uid ∉ (dispStep s (Event.userRec (IdVal.intId uid) uu fn ln)).pendingUsers
    ∧ cacheLookup (dispStep s (Event.chatRec (IdVal.intId cid) (some t) uu)).chatsCache cid
        = some t
    ∧ cacheLookup (dispStep s (Event.chatRec (IdVal.intId cid) none uu)).chatsCache cid
        = some ("chat:" ++ toString cid)
    ∧ (some cid) ∉ (dispStep s (Event.chatRec (IdVal.intId cid) title uu)).pendingChats
    ∧ cacheLookup
        (dispStep (dispStep s (Event.userRec (IdVal.intId uid) (some u) fn ln))
          (Event.userRec (IdVal.intId uid) (some u2) fn ln)).usersCache uid
        = some ("@" ++ u2) := by
  refine ⟨?_, ?_, ?_, ?_, ?_, ?_, ?_, ?_⟩
  · rw [dispStep_userRec_lookup, userDisplay_at uid u _ _ hu]
  · rw [dispStep_userRec_lookup]
    exact congrArg some (userDisplay_names uid f l hf hl)
  · rw [dispStep_userRec_lookup]
    exact congrArg some (userDisplay_fallback uid f0 l0 hf0 hl0)
  · rw [dispStep_userRec_intId]
    intro hmem
    exact ((mem_discardId _ _ _).mp hmem).2 rfl
  · rw [dispStep_chatRec_intId]
    exact cacheLookup_cons_self _ _ _
  · rw [dispStep_chatRec_intId]
    exact cacheLookup_cons_self _ _ _
  · rw [dispStep_chatRec_intId]
    intro hmem
    exact ((mem_discardId _ _ _).mp hmem).2 rfl
  · rw [dispStep_userRec_lookup, userDisplay_at uid u2 _ _ hu2]

/-- Witness for C8 (amended) at concrete records. -/
theorem C8_witness :
    cacheLookup
        (dispStep initState (Event.userRec (IdVal.intId 1) (some "ann") none none)).usersCache 1
      = some "@ann"
    ∧ cacheLookup
        (dispStep initState
          (Event.userRec (IdVal.intId 1) none (some " Bo ") (some "Li"))).usersCache 1
      = some "Bo Li"
    ∧ cacheLookup
        (dispStep initState (Event.chatRec (IdVal.intId 2) (some "Chat") none)).chatsCache 2
      = some "Chat"
    ∧ cacheLookup
        (dispStep (dispStep initState (Event.userRec (IdVal.intId 1) (some "ann") none none))
          (Event.userRec (IdVal.intId 1) (some "bea") none none)).usersCache 1
      = some "@bea" := by
  have h := C8_amended initState 1 2 "ann" "bea" " Bo " "Li" "  " "" "Chat"
    none none none none
    (by decide) (by decide) (by decide) (by decide) (by decide) (by decide)
  refine ⟨?_, ?_, ?_, ?_⟩
  · have h1 := h.1
    rw [show ("@" ++ "ann" : String) = "@ann" from by decide] at h1
    exact h1
  · have h2 := h.2.1
    rw [show (stripStr " Bo " ++ " " ++ stripStr "Li" : String) = "Bo Li" from by decide] at h2
    exact h2
  · exact h.2.2.2.2.1
  · have h8 := h.2.2.2.2.2.2.2
    rw [show ("@" ++ "bea" : String) = "@bea" from by decide] at h8
    exact h8

/-- C9: `execute` returns `None` when the engine gave no synchronous answer
or the answer failed to parse, and the parsed result otherwise. -/
theorem C9_execute_optional {α : Type} (parseLoads : String → Option α) (s : String) (a : α) :
    tdExecute none parseLoads = none
    ∧ (parseLoads s = none → tdExecute (some s) parseLoads = none)
    ∧ (s ≠ "" → parseLoads s = some a → tdExecute (some s) parseLoads = some a) := by
  refine ⟨rfl, ?_, ?_⟩
  · intro h
    by_cases hs : s = "" <;> simp [tdExecute, hs, h]
  · intro hs hp
    simp [tdExecute, hs, hp]

/-- Witness for C9 at a concrete parse function. -/
theorem C9_witness :
    tdExecute (some "ok") (fun x => if x = "ok" then some (7 : Nat) else none) = some 7
    ∧ tdExecute none (fun x => if x = "ok" then some (7 : Nat) else none) = none
    ∧ tdExecute (some "bad") (fun x => if x = "ok" then some (7 : Nat) else none) = none := by
  have h := C9_execute_optional (fun x => if x = "ok" then some (7 : Nat) else none) "ok" 7
  have h2 := C9_execute_optional (fun x => if x = "ok" then some (7 : Nat) else none) "bad" 7
  exact ⟨h.2.2 (by decide) (by decide), h.1, h2.2.1 (by decide)⟩

/-- C10: A `user` or `chat` resolution response whose id is missing or not
an integer has no effect at all: the dispatcher state (both caches, both
pending sets, the sent commands and the emitted records) is unchanged. -/
theorem C10_bad_id_frame (s : DispState) (id : IdVal) (uu fn ln title : Option String)
    (hid : isIntId id = false) :
    dispStep s (Event.userRec id uu fn ln) = s
    ∧ dispStep s (Event.chatRec id title uu) = s := by
  cases id with
  | intId i => simp [isIntId] at hid
  | nonInt => exact ⟨rfl, rfl⟩
  | missing => exact ⟨rfl, rfl⟩

/-- Witness for C10 at concrete malformed records. -/
theorem C10_witness :
    dispStep initState (Event.userRec IdVal.nonInt (some "x") none none) = initState
    ∧ dispStep initState (Event.chatRec IdVal.nonInt (some "T") (some "x")) = initState :=
  C10_bad_id_frame initState IdVal.nonInt (some "x") none none (some "T") (by decide)

/-- C2 (code bug): during an `@username` resolution the send loop consumes
a non-matching `updateNewMessage` from the shared queue and drops it — the
resolved queue remainder is empty and the message ends up in the discarded
list, so the dispatcher (the queue's other consumer) can never observe it,
contrary to the source's own comment that consumers listening to the same
queue will see the same updates. -/
theorem C2_events_lost :
    usernameResolve
        [Event.newMessage ⟨some 1, SenderId.user (some 2), ⟨some "messageText", some "hi"⟩, some 0⟩,
         Event.chatRec (IdVal.intId 99) (some "Title") (some "foo")] "foo"
      = (ResolveOutcome.resolved (some 99), [],
         [Event.newMessage ⟨some 1, SenderId.user (some 2), ⟨some "messageText", some "hi"⟩,
            some 0⟩]) := by
  decide

/-- C3 counterexample: the console send loop's resolution of
`@doesnotexist` is still blocked and waiting after consuming 25 events none
of which match — there is no timeout outcome at all in this loop (its only
exit is a match), so it does not fail with a ResolutionTimeout after any
configured bound. -/
theorem C3_counterexample :
    (usernameResolve (List.replicate 25 (Event.other "updateOption")) "doesnotexist").1
      = ResolveOutcome.waiting := by
  decide

theorem usernameResolve_no_match (evs : List Event) (u : String)
    (h : ∀ e ∈ evs, matchesChat u e = false) :
    (usernameResolve evs u).1 = ResolveOutcome.waiting := by
  induction evs with
  | nil => rfl
  | cons e rest ih =>
    have he := h e (List.mem_cons_self e rest)
    simp only [usernameResolve, he]
    exact ih (fun x hx => h x (List.mem_cons_of_mem e hx))

theorem webResolve_gaveUp_now (start deadline now : Nat) (u : String)
    (tevs : List (Event × Nat)) (h : deadline ≤ now - start) :
    webResolve start deadline u now tevs = ResolveOutcome.gaveUp := by
  cases tevs with
  | nil => simp [webResolve, h]
  | cons p rest =>
    obtain ⟨e, t⟩ := p
    simp [webResolve, h]

theorem webResolve_no_match_gaveUp (tevs : List (Event × Nat)) :
    ∀ (start deadline now t1 : Nat) (u : String) (e1 : Event)
      (pre rest : List (Event × Nat)),
    (∀ p ∈ tevs, matchesChat u p.1 = false) →
    tevs = pre ++ (e1, t1) :: rest →
    deadline ≤ t1 - start →
    webResolve start deadline u now tevs = ResolveOutcome.gaveUp := by
  induction tevs with
  | nil =>
    intro start deadline now t1 u e1 pre rest _ hsplit _
    exact absurd hsplit (by simp)
  | cons p tl ih =>
    intro start deadline now t1 u e1 pre rest hnm hsplit hlate
    by_cases hnow : deadline ≤ now - start
    · exact webResolve_gaveUp_now start deadline now u _ hnow
    · obtain ⟨e, t⟩ := p
      have hm : matchesChat u e = false := hnm (e, t) (List.mem_cons_self _ _)
      have hred : webResolve start deadline u now ((e, t) :: tl)
          = webResolve start deadline u t tl := by
        simp [webResolve, hnow, hm]
      rw [hred]
      cases pre with
      | nil =>
        injection hsplit with h1 h2
        have ht : t = t1 := congrArg Prod.snd h1
        rw [ht, h2]
        exact webResolve_gaveUp_now start deadline t1 u rest hlate
      | cons q pre2 =>
        rw [List.cons_append] at hsplit
        injection hsplit with h1 h2
        exact ih start deadline t t1 u e1 pre2 rest
          (fun x hx => hnm x (List.mem_cons_of_mem _ hx)) h2 hlate

/-- C3 (amended): the console send loop's username resolution has no
timeout: on a stream with no matching chat record it stays blocked waiting
forever and never produces a failure.  The web send path's resolution is
bounded: with no matching chat record it never resolves, and once an event
arriving at or after the 10-second deadline has been processed it gives up,
returning a structured failure result rather than raising; neither path
retries the destination. -/
theorem C3_amended_timeout
    (evs : List Event) (u : String)
    (tevs pre rest : List (Event × Nat)) (start deadline now t1 : Nat) (e1 : Event)
    (hnm : ∀ e ∈ evs, matchesChat u e = false)
    (hnmw : ∀ p ∈ tevs, matchesChat u p.1 = false)
    (hsplit : tevs = pre ++ (e1, t1) :: rest)
    (hlate : deadline ≤ t1 - start) :
    (usernameResolve evs u).1 = ResolveOutcome.waiting
    ∧ webResolve start deadline u now tevs = ResolveOutcome.gaveUp := by
  exact ⟨usernameResolve_no_match evs u hnm,
    webResolve_no_match_gaveUp tevs start deadline now t1 u e1 pre rest hnmw hsplit hlate⟩

/-- Witness for C3 (amended) on concrete streams for `@doesnotexist`. -/
theorem C3_witness :
    (usernameResolve [Event.other "updateOption"] "doesnotexist").1 = ResolveOutcome.waiting
    ∧ webResolve 0 10 "doesnotexist" 0 [(Event.other "updateOption", 20)]
      = ResolveOutcome.gaveUp := by
  have h := C3_amended_timeout [Event.other "updateOption"] "doesnotexist"
    [(Event.other "updateOption", 20)] [] [] 0 10 0 20 (Event.other "updateOption")
    (by decide) (by decide) rfl (by decide)
  exact h

end HeadlessTCLI
